import Mathlib

/-!
Verification of the recurring-task scheduler of `src/elohim.py` (class
`Elohim`): `schedule_task`, `_start_task_scheduler` with its nested
`worker` and `run_task` closures, and the `queue.Queue` task queue.

The embedding is shallow: machine state is explicit records, the
thread-safe FIFO queue is a Lean list with atomic put/get steps, thread
interleavings are explicit event traces, and `time.sleep` advances an
abstract discrete clock.  Python exceptions are modelled with
`Except String`.
-/

namespace Elohim

/-- A scheduling request as enqueued by `schedule_task`: the pair
`(interval_sec, task_fn)`.  The callable `task_fn` is abstracted to an
opaque identifier; its runtime behaviour is modelled separately where a
claim needs it. -/
structure Task where
  interval_sec : Int
  task_fn : Nat
deriving DecidableEq

/-! ## The task queue (`queue.Queue`)

`self.task_queue = queue.Queue()` is an unbounded thread-safe FIFO.
`put` appends at the tail; `get` blocks until an item is available and
then removes the head.  Thread safety makes each `put`/`get` atomic, so
a concurrent execution is an arbitrary interleaving of atomic queue
operations: we model it as a list of operations applied in order.  A
`get` issued while the queue is empty blocks, i.e. it does not complete:
in the interleaving it is a no-op (the completed `get` appears later in
the trace, once an item is present). -/

/-- One atomic operation on the shared queue: a producer `put` of a
payload, or a consumer `get` performed by consumer number `c`. -/
inductive QOp (α : Type) where
  | put (x : α)
  | get (c : Nat)
deriving DecidableEq

/-- The queue together with the record of completed deliveries:
`dequeued` lists, in completion order, which consumer received which
item. -/
structure QState (α : Type) where
  queue : List α
  dequeued : List (Nat × α)
deriving DecidableEq

/-- Effect of one atomic queue operation. -/
def qstep {α : Type} (s : QState α) : QOp α → QState α
  | QOp.put x => { s with queue := s.queue ++ [x] }
  | QOp.get c =>
    match s.queue with
    | [] => s
    | x :: rest => { queue := rest, dequeued := s.dequeued ++ [(c, x)] }

/-- Run a whole interleaving of queue operations. -/
def qrun {α : Type} : List (QOp α) → QState α → QState α
  | [], s => s
  | op :: rest, s => qrun rest (qstep s op)

/-- The payloads submitted by `put` operations, in submission order. -/
def putsOf {α : Type} : List (QOp α) → List α
  | [] => []
  | QOp.put x :: rest => x :: putsOf rest
  | QOp.get _ :: rest => putsOf rest

/-- The items delivered so far, in delivery order (consumer tags
dropped). -/
def deliveredOf {α : Type} (s : QState α) : List α :=
  s.dequeued.map Prod.snd

/-! ## Scheduler state: `schedule_task` and `_start_task_scheduler`

```python
def schedule_task(self, interval_sec, task_fn):
    self.task_queue.put((interval_sec, task_fn))
    if not self.scheduler_started:
        self.scheduler_started = True
        self._start_task_scheduler()

def _start_task_scheduler(self):
    def worker(): ...
    for _ in range(self.max_worker_threads):
        try:
            threading.Thread(target=worker, daemon=True).start()
        except RuntimeError as e:
            logging.error(f"Worker thread failed to start: ...")
```

The observable state is the queue contents, the `scheduler_started`
flag, the number of successfully started dispatcher worker threads, and
the logging sink.  `threading.Thread(...).start()` may raise
`RuntimeError` when the runtime cannot spawn a thread; which attempts
fail is an environment choice, modelled by a predicate on the attempt
index. -/

structure SchedState where
  task_queue : List Task
  scheduler_started : Bool
  workers : Nat
  log : List String
deriving DecidableEq

/-- State after `Elohim.__init__`: empty queue, scheduler not started,
no worker threads, nothing logged. -/
def initState : SchedState :=
  { task_queue := [], scheduler_started := false, workers := 0, log := [] }

/-- `self.max_worker_threads = 5`. -/
def max_worker_threads : Nat := 5

/-- `threading.Thread(target=..., daemon=True).start()`: raises
`RuntimeError` when the runtime cannot allocate a new thread. -/
def thread_start (fails : Bool) : Except String Unit :=
  if fails then Except.error "cannot start new thread" else Except.ok ()

/-- One iteration of the `for _ in range(self.max_worker_threads)` body:
`try: Thread(worker).start() except RuntimeError as e: logging.error`.
The `RuntimeError` is caught and logged, so the step is total. -/
def spawn_worker (fails : Bool) (st : SchedState) : SchedState :=
  match thread_start fails with
  | Except.ok _ => { st with workers := st.workers + 1 }
  | Except.error e =>
    { st with log := st.log ++ ["Worker thread failed to start: " ++ e] }

/-- `_start_task_scheduler`: attempt to start `max_worker_threads`
dispatcher workers; `spawnFail i` says whether the `i`-th attempt
raises. -/
def _start_task_scheduler (spawnFail : Nat → Bool) (s : SchedState) : SchedState :=
  (List.range max_worker_threads).foldl (fun st i => spawn_worker (spawnFail i) st) s

/-- `schedule_task`: enqueue the task, then lazily start the pool.
Note the order in the source: the flag is set to `True` before
`_start_task_scheduler()` runs. -/
def schedule_task (spawnFail : Nat → Bool) (s : SchedState)
    (interval_sec : Int) (task_fn : Nat) : SchedState :=
  let s1 := { s with task_queue := s.task_queue ++ [Task.mk interval_sec task_fn] }
  if s1.scheduler_started then s1
  else _start_task_scheduler spawnFail { s1 with scheduler_started := true }

/-- Exception-explicit rendering of the `spawn_worker` step: the body
may raise, the handler catches, hence the step always returns
normally. -/
def spawn_worker_E (fails : Bool) (st : SchedState) : Except String SchedState :=
  match thread_start fails with
  | Except.ok _ => Except.ok { st with workers := st.workers + 1 }
  | Except.error e =>
    Except.ok { st with log := st.log ++ ["Worker thread failed to start: " ++ e] }

/-- Exception-explicit rendering of `_start_task_scheduler`: an uncaught
exception in any iteration would propagate as `Except.error`. -/
def _start_task_scheduler_E (spawnFail : Nat → Bool) (s : SchedState) :
    Except String SchedState :=
  (List.range max_worker_threads).foldlM (fun st i => spawn_worker_E (spawnFail i) st) s

/-- Exception-explicit rendering of `schedule_task`: `queue.Queue.put`
on an unbounded queue does not raise, and the only other statements are
the flag update and the guarded thread starts. -/
def schedule_task_E (spawnFail : Nat → Bool) (s : SchedState)
    (interval_sec : Int) (task_fn : Nat) : Except String SchedState :=
  let s1 := { s with task_queue := s.task_queue ++ [Task.mk interval_sec task_fn] }
  if s1.scheduler_started then Except.ok s1
  else _start_task_scheduler_E spawnFail { s1 with scheduler_started := true }

/-- A sequence of `schedule_task` calls (sequential submissions). -/
def submitAll (spawnFail : Nat → Bool) : List (Int × Nat) → SchedState → SchedState
  | [], s => s
  | p :: rest, s => submitAll spawnFail rest (schedule_task spawnFail s p.1 p.2)

/-- No spawn attempt fails. -/
def noFail : Nat → Bool := fun _ => false

/-- Every spawn attempt fails. -/
def allFail : Nat → Bool := fun _ => true

/-! ## The repeating loop `run_task`

```python
def run_task():
    while True:
        try:
            task_fn()
        except Exception as e:
            logging.error(f"Scheduled task error: ...")
        time.sleep(interval)
```

For the per-loop claims we model one loop in isolation, fixing the
`interval` and `task_fn` it reads (the cell-sharing effect between the
worker and its loops is modelled separately below).  The action's
behaviour at its `k`-th invocation is a function `Nat → Except String
Unit`; its duration at the `k`-th invocation is `dur k` clock ticks;
`time.sleep(interval)` advances the clock by `interval` ticks.  The
state records how often the action has been invoked, the loop's local
clock, and the log sink. -/

structure LoopState where
  count : Nat
  time : Nat
  log : List String
deriving DecidableEq

/-- Loop-local state when the loop thread starts: nothing invoked,
clock at the spawn instant (taken as 0), nothing logged. -/
def loop_init : LoopState := { count := 0, time := 0, log := [] }

/-- One cycle of the `while True` body: invoke `task_fn` (recording a
log line when it raises — the `except` clause), let `dur` ticks pass
for the invocation itself, then `time.sleep(interval)`. -/
def run_task_cycle (tf : Nat → Except String Unit) (interval : Nat)
    (dur : Nat → Nat) (s : LoopState) : LoopState :=
  let s1 :=
    match tf s.count with
    | Except.ok _ => { s with count := s.count + 1, time := s.time + dur s.count }
    | Except.error e =>
      { s with count := s.count + 1, time := s.time + dur s.count,
               log := s.log ++ ["Scheduled task error: " ++ e] }
  { s1 with time := s1.time + interval }

/-- State of the loop after `n` complete cycles. -/
def run_task (tf : Nat → Except String Unit) (interval : Nat)
    (dur : Nat → Nat) : Nat → LoopState
  | 0 => loop_init
  | n + 1 => run_task_cycle tf interval dur (run_task tf interval dur n)

/-- Whether an invocation outcome is a raised exception. -/
def isFailure : Except String Unit → Bool
  | Except.ok _ => false
  | Except.error _ => true

/-- Number of failing invocations among the first `n`. -/
def failureCount (tf : Nat → Except String Unit) (n : Nat) : Nat :=
  ((List.range n).filter (fun k => isFailure (tf k))).length

/-- Value of a counting action's counter once `T` ticks have elapsed:
the number of invocations whose start time is at most `T`.  The `k`-th
invocation starts at time `(run_task tf interval dur k).time`, i.e.
right after `k` complete cycles.  `fuel` bounds the invocation indices
inspected; it is harmless once it exceeds every `k` with start time
`≤ T` (start times grow by at least `interval` per cycle). -/
def counterAt (tf : Nat → Except String Unit) (interval : Nat)
    (dur : Nat → Nat) (T fuel : Nat) : Nat :=
  ((List.range fuel).filter
    (fun k => (run_task tf interval dur k).time ≤ T)).length

/-! ## The dispatcher worker and the shared closure cell

```python
def worker():
    while True:
        interval, task_fn = self.task_queue.get()
        def run_task():
            while True:
                try: task_fn()
                except Exception as e: logging.error(...)
                time.sleep(interval)
        try:
            threading.Thread(target=run_task, daemon=True).start()
        except RuntimeError as e:
            logging.error(f"Thread limit reached: ...")
```

`run_task` is a closure over the *variables* `interval` and `task_fn`
of `worker`'s frame, not over their values: every iteration of
`worker`'s `while True` rebinds the same two cells, which are shared by
every `run_task` thread this worker has spawned.  Each loop iteration
reads `task_fn` (the call) and `interval` (the sleep) from the cells at
that instant.  We model one dispatcher worker and its spawned loops as
a state with the queue, the worker's current cell binding, the number
of loops spawned so far (loop `j` is the one spawned by the `j`-th
dequeue), and the record of which `(interval, task_fn)` pair each loop
iteration actually used.  Thread interleaving is an explicit event
trace. -/

structure WTrace where
  queue : List Task
  cell : Option Task
  loopsSpawned : Nat
  invoked : List (Nat × Task)
deriving DecidableEq

/-- One scheduling event: the worker completes a dequeue (rebinding the
shared cell and spawning the next loop thread), or loop `j` performs
one iteration of its `while True` body. -/
inductive WEv where
  | dispatch
  | iterate (j : Nat)
deriving DecidableEq

/-- Effect of one event.  A `dispatch` with an empty queue is a blocked
`get`, i.e. a no-op; an `iterate j` of a not-yet-spawned loop is a
no-op.  An iteration of loop `j` invokes whatever `(interval, task_fn)`
the shared cell holds at that instant. -/
def wstep (s : WTrace) : WEv → WTrace
  | WEv.dispatch =>
    match s.queue with
    | [] => s
    | t :: rest =>
      { s with queue := rest, cell := some t, loopsSpawned := s.loopsSpawned + 1 }
  | WEv.iterate j =>
    match s.cell with
    | some t =>
      if j < s.loopsSpawned then { s with invoked := s.invoked ++ [(j, t)] } else s
    | none => s

/-- Run a trace of events. -/
def wrun : List WEv → WTrace → WTrace
  | [], s => s
  | e :: rest, s => wrun rest (wstep s e)

/-- Initial state of a worker facing the given queue contents. -/
def winit (tasks : List Task) : WTrace :=
  { queue := tasks, cell := none, loopsSpawned := 0, invoked := [] }

/-- Whether an event is a dispatcher event. -/
def isDispatch : WEv → Bool
  | WEv.dispatch => true
  | WEv.iterate _ => false

/-- The dispatcher-visible part of the state: queue, cell, loops
spawned. -/
def dpart (s : WTrace) : List Task × Option Task × Nat :=
  (s.queue, s.cell, s.loopsSpawned)

/-! ## Spawn failure inside the worker loop

The worker wraps `threading.Thread(target=run_task, ...).start()` in
`try ... except RuntimeError`, logging `Thread limit reached` and going
straight back to `self.task_queue.get()`.  To settle the spawn-failure
claim we run the worker over a finite sequence of dequeued tasks,
letting the environment decide which spawn attempts raise (`spawnFail
k` for the `k`-th attempt), and record which loops were started, which
tasks were dropped, and the log. -/

structure DispatchResult where
  spawned : List Task
  dropped : List Task
  log : List String
deriving DecidableEq

/-- The worker's dequeue loop over the tasks it will dequeue, starting
at spawn-attempt index `k`: for each task, try to start its `run_task`
thread; on `RuntimeError`, log and continue with the next dequeue (the
task is dropped, never re-queued). -/
def worker_dispatch (spawnFail : Nat → Bool) :
    Nat → List Task → DispatchResult → DispatchResult
  | _, [], acc => acc
  | k, t :: rest, acc =>
    worker_dispatch spawnFail (k + 1) rest
      (match thread_start (spawnFail k) with
       | Except.ok _ => { acc with spawned := acc.spawned ++ [t] }
       | Except.error e =>
         { acc with dropped := acc.dropped ++ [t],
                    log := acc.log ++ ["Thread limit reached: " ++ e] })

/-- The elements of a list whose positions (counted from `k`) satisfy
`p`. -/
def filterIdx {α : Type} (p : Nat → Bool) : Nat → List α → List α
  | _, [] => []
  | k, x :: rest =>
    if p k then x :: filterIdx p (k + 1) rest else filterIdx p (k + 1) rest

/-! ## Helper lemmas -/

lemma qrun_invariant {α : Type} (ops : List (QOp α)) (s : QState α) :
    deliveredOf (qrun ops s) ++ (qrun ops s).queue
      = deliveredOf s ++ s.queue ++ putsOf ops := by
  induction ops generalizing s with
  | nil => simp [qrun, putsOf]
  | cons op rest ih =>
    cases op with
    | put x =>
      rw [qrun, ih, putsOf]
      simp [qstep, deliveredOf, List.append_assoc]
    | get c =>
      cases hq : s.queue with
      | nil =>
        rw [qrun, ih, putsOf]
        simp [qstep, hq]
      | cons y ys =>
        rw [qrun, ih, putsOf]
        simp [qstep, hq, deliveredOf, List.append_assoc]

lemma spawn_worker_fields (f : Bool) (st : SchedState) :
    (spawn_worker f st).scheduler_started = st.scheduler_started ∧
    (spawn_worker f st).task_queue = st.task_queue := by
  cases f <;> simp [spawn_worker, thread_start]

lemma foldl_spawn_started (sf : Nat → Bool) (l : List Nat) (s : SchedState) :
    ((l.foldl (fun st i => spawn_worker (sf i) st) s).scheduler_started)
      = s.scheduler_started := by
  induction l generalizing s with
  | nil => rfl
  | cons i rest ih => rw [List.foldl_cons, ih, (spawn_worker_fields (sf i) s).1]

lemma foldl_spawn_queue (sf : Nat → Bool) (l : List Nat) (s : SchedState) :
    ((l.foldl (fun st i => spawn_worker (sf i) st) s).task_queue) = s.task_queue := by
  induction l generalizing s with
  | nil => rfl
  | cons i rest ih => rw [List.foldl_cons, ih, (spawn_worker_fields (sf i) s).2]

lemma foldl_spawn_workers_noFail (l : List Nat) (s : SchedState) :
    ((l.foldl (fun st i => spawn_worker (noFail i) st) s).workers)
      = s.workers + l.length := by
  induction l generalizing s with
  | nil => simp
  | cons i rest ih =>
    rw [List.foldl_cons, ih]
    simp only [spawn_worker, noFail, thread_start, if_neg Bool.false_ne_true,
      List.length_cons]
    omega

lemma schedule_task_started (sf : Nat → Bool) (s : SchedState)
    (i : Int) (f : Nat) :
    (schedule_task sf s i f).scheduler_started = true := by
  by_cases h : s.scheduler_started
  · simp [schedule_task, h]
  · simp only [Bool.not_eq_true] at h
    simp [schedule_task, h, _start_task_scheduler, foldl_spawn_started]

lemma schedule_task_of_started (sf : Nat → Bool) (s : SchedState)
    (i : Int) (f : Nat) (h : s.scheduler_started = true) :
    schedule_task sf s i f
      = { s with task_queue := s.task_queue ++ [Task.mk i f] } := by
  simp [schedule_task, h]

lemma submitAll_of_started (sf : Nat → Bool) (subs : List (Int × Nat))
    (s : SchedState) (h : s.scheduler_started = true) :
    submitAll sf subs s
      = { s with task_queue :=
            s.task_queue ++ subs.map (fun p => Task.mk p.1 p.2) } := by
  induction subs generalizing s with
  | nil => simp [submitAll]
  | cons p rest ih =>
    rw [submitAll, schedule_task_of_started sf s p.1 p.2 h, ih]
    · simp [List.append_assoc]
    · exact h

lemma run_task_cycle_count (tf : Nat → Except String Unit) (interval : Nat)
    (dur : Nat → Nat) (s : LoopState) :
    (run_task_cycle tf interval dur s).count = s.count + 1 := by
  cases htf : tf s.count <;> simp [run_task_cycle, htf]

lemma run_task_count (tf : Nat → Except String Unit) (interval : Nat)
    (dur : Nat → Nat) (n : Nat) :
    (run_task tf interval dur n).count = n := by
  induction n with
  | zero => rfl
  | succ n ih => rw [run_task, run_task_cycle_count, ih]

lemma run_task_cycle_time (tf : Nat → Except String Unit) (interval : Nat)
    (dur : Nat → Nat) (s : LoopState) :
    (run_task_cycle tf interval dur s).time = s.time + dur s.count + interval := by
  cases htf : tf s.count <;> simp [run_task_cycle, htf]

lemma run_task_cycle_log (tf : Nat → Except String Unit) (interval : Nat)
    (dur : Nat → Nat) (s : LoopState) :
    (run_task_cycle tf interval dur s).log.length
      = s.log.length + (if isFailure (tf s.count) then 1 else 0) := by
  cases htf : tf s.count <;> simp [run_task_cycle, htf, isFailure]

lemma run_task_log (tf : Nat → Except String Unit) (interval : Nat)
    (dur : Nat → Nat) (n : Nat) :
    (run_task tf interval dur n).log.length = failureCount tf n := by
  induction n with
  | zero => rfl
  | succ n ih =>
    rw [run_task, run_task_cycle_log, ih, run_task_count]
    simp only [failureCount, List.range_succ, List.filter_append, List.length_append]
    by_cases h : isFailure (tf n) <;> simp [h]

lemma dpart_iterate (s : WTrace) (j : Nat) :
    dpart (wstep s (WEv.iterate j)) = dpart s := by
  cases hc : s.cell with
  | none => simp [wstep, hc]
  | some t =>
    by_cases hj : j < s.loopsSpawned <;> simp [wstep, hc, hj, dpart]

lemma invoked_dispatch (s : WTrace) :
    (wstep s WEv.dispatch).invoked = s.invoked := by
  cases hq : s.queue <;> simp [wstep, hq]

lemma dpart_dispatch_congr (s s' : WTrace) (h : dpart s = dpart s') :
    dpart (wstep s WEv.dispatch) = dpart (wstep s' WEv.dispatch) := by
  simp only [dpart, Prod.mk.injEq] at h
  obtain ⟨hq, hc, hl⟩ := h
  cases hq2 : s.queue with
  | nil => simp [wstep, hq2, ← hq, dpart, hc, hl]
  | cons t rest => simp [wstep, hq2, ← hq, dpart, hl]

lemma wrun_dpart_filter (evs : List WEv) (s s' : WTrace)
    (h : dpart s = dpart s') :
    dpart (wrun evs s) = dpart (wrun (evs.filter isDispatch) s') := by
  induction evs generalizing s s' with
  | nil => exact h
  | cons e rest ih =>
    cases e with
    | dispatch =>
      rw [wrun]
      have : (WEv.dispatch :: rest).filter isDispatch
          = WEv.dispatch :: rest.filter isDispatch := by simp [isDispatch]
      rw [this, wrun]
      exact ih _ _ (dpart_dispatch_congr s s' h)
    | iterate j =>
      rw [wrun]
      have : (WEv.iterate j :: rest).filter isDispatch
          = rest.filter isDispatch := by simp [isDispatch]
      rw [this]
      exact ih _ _ ((dpart_iterate s j).trans h)

lemma filterIdx_length_add {α : Type} (p : Nat → Bool) (k : Nat) (l : List α) :
    (filterIdx p k l).length + (filterIdx (fun j => ! p j) k l).length
      = l.length := by
  induction l generalizing k with
  | nil => rfl
  | cons x rest ih =>
    by_cases h : p k <;> simp [filterIdx, h, ← ih (k + 1)] <;> omega

lemma worker_dispatch_spec (spawnFail : Nat → Bool) (tasks : List Task)
    (k : Nat) (acc : DispatchResult) :
    worker_dispatch spawnFail k tasks acc
      = { spawned := acc.spawned ++ filterIdx (fun j => ! spawnFail j) k tasks,
          dropped := acc.dropped ++ filterIdx spawnFail k tasks,
          log := acc.log ++ List.replicate (filterIdx spawnFail k tasks).length
                   "Thread limit reached: cannot start new thread" } := by
  induction tasks generalizing k acc with
  | nil => simp [worker_dispatch, filterIdx]
  | cons t rest ih =>
    by_cases h : spawnFail k
    · rw [worker_dispatch]
      simp only [thread_start, h, if_pos]
      rw [ih]
      simp [filterIdx, h, List.replicate_succ, List.append_assoc]
    · rw [worker_dispatch]
      simp only [thread_start, h, Bool.false_eq_true, if_neg, not_false_iff]
      rw [ih]
      simp [filterIdx, h, List.append_assoc]

lemma spawn_worker_E_ok (f : Bool) (st : SchedState) :
    spawn_worker_E f st = Except.ok (spawn_worker f st) := by
  cases f <;> rfl

lemma foldlM_of_ok {β : Type} (g : SchedState → β → SchedState) (l : List β)
    (s : SchedState) :
    l.foldlM (fun st x => (Except.ok (g st x) : Except String SchedState)) s
      = Except.ok (l.foldl g s) := by
  induction l generalizing s with
  | nil => rfl
  | cons x rest ih =>
    rw [List.foldlM_cons, List.foldl_cons]
    calc (Except.ok (g s x) >>= fun st =>
            rest.foldlM (fun st x => (Except.ok (g st x) : Except String SchedState)) st)
        = rest.foldlM (fun st x => (Except.ok (g st x) : Except String SchedState))
            (g s x) := rfl
      _ = Except.ok (rest.foldl g (g s x)) := ih (g s x)

lemma _start_task_scheduler_E_ok (sf : Nat → Bool) (s : SchedState) :
    _start_task_scheduler_E sf s = Except.ok (_start_task_scheduler sf s) := by
  unfold _start_task_scheduler_E _start_task_scheduler
  have hfun : (fun (st : SchedState) (i : Nat) => spawn_worker_E (sf i) st)
      = fun st i => Except.ok (spawn_worker (sf i) st) :=
    funext fun st => funext fun i => spawn_worker_E_ok (sf i) st
  rw [hfun]
  exact foldlM_of_ok (fun st i => spawn_worker (sf i) st) (List.range max_worker_threads) s

lemma schedule_task_E_ok (sf : Nat → Bool) (s : SchedState) (i : Int) (f : Nat) :
    schedule_task_E sf s i f = Except.ok (schedule_task sf s i f) := by
  by_cases h : s.scheduler_started
  · simp [schedule_task_E, schedule_task, h]
  · simp only [Bool.not_eq_true] at h
    simp [schedule_task_E, schedule_task, h, _start_task_scheduler_E_ok]

/-! ## The claims -/

/-- C1: the claim says each repeating loop owns its dispatched task for
its entire lifetime, invoking the same action with the same interval in
every iteration regardless of later dequeues by the same worker.  The
code violates this: `run_task` closes over the worker-frame variables
`interval`/`task_fn`, which every later dequeue rebinds.  Concretely,
the worker dequeues task `(1, 0)` and spawns loop 0, then dequeues
task `(2, 1)`; loop 0's next iteration invokes action `1` with
interval `2`, although loop 0 was dispatched task `(1, 0)`. -/
theorem C1_closure_code_bug :
    (wrun [WEv.dispatch, WEv.dispatch, WEv.iterate 0]
        (winit [Task.mk 1 0, Task.mk 2 1])).invoked = [(0, Task.mk 2 1)] ∧
    [Task.mk 1 0, Task.mk 2 1].get? 0 = some (Task.mk 1 0) ∧
    Task.mk 2 1 ≠ Task.mk 1 0 := by
  decide

/-- C2: in every cycle, a raised exception is recorded to the logging
sink and the loop goes on: after `n` elapsed cycles the action has been
invoked exactly `n` times, whatever the pattern of failures (so an
always-failing action is invoked in all `n` cycles and contributes `n`
log entries), and the log holds exactly one entry per failing
invocation. -/
theorem C2_failure_nonfatal_loop_continues :
    ∀ (tf : Nat → Except String Unit) (interval : Nat) (dur : Nat → Nat) (n : Nat),
      (run_task tf interval dur n).count = n ∧
      (run_task tf interval dur n).log.length = failureCount tf n :=
  fun tf interval dur n =>
    ⟨run_task_count tf interval dur n, run_task_log tf interval dur n⟩

/-- C3, counterexample to the concrete scenario: the claim asserts that
with interval 1 (time unit) and a near-zero-duration counting action the
counter is 3 after 3.5 elapsed time units.  Modelled with 2 ticks per
time unit (interval = 2 ticks, elapsed = 7 ticks, zero duration), the
counter is 4, not 3: the first invocation happens immediately at spawn,
so invocations start at ticks 0, 2, 4, 6. -/
theorem C3_counterexample :
    counterAt (fun _ => Except.ok ()) 2 (fun _ => 0) 7 10 = 4 ∧
    ¬ counterAt (fun _ => Except.ok ()) 2 (fun _ => 0) 7 10 = 3 := by
  decide

/-- C3 amended: every cycle, success or failure, ends with a sleep of
exactly the submitted interval after the action completes (fixed
delay), and in the concrete scenario (interval 1 unit = 2 ticks,
zero-duration action, 3.5 units = 7 ticks elapsed) the counter is 4,
the invocations having started at times 0, 1, 2 and 3 units because the
first invocation runs immediately at spawn. -/
theorem C3_amended_fixed_delay :
    (∀ (tf : Nat → Except String Unit) (interval : Nat) (dur : Nat → Nat) (n : Nat),
      (run_task tf interval dur (n + 1)).time
        = (run_task tf interval dur n).time + dur n + interval) ∧
    counterAt (fun _ => Except.ok ()) 2 (fun _ => 0) 7 10 = 4 := by
  constructor
  · intro tf interval dur n
    rw [run_task, run_task_cycle_time, run_task_count]
  · decide

/-- C4: for any interleaving of atomic queue operations (any producers,
any consumers), the delivered items followed by the remaining queue contents
equal the submitted items in submission order — so nothing is lost,
nothing is delivered twice, and the delivery order is exactly the
submission order (the delivered sequence is the corresponding initial
segment of the submission sequence). -/
theorem C4_fifo_exactly_once :
    ∀ (α : Type) (ops : List (QOp α)),
      deliveredOf (qrun ops (QState.mk [] [])) ++ (qrun ops (QState.mk [] [])).queue
        = putsOf ops ∧
      deliveredOf (qrun ops (QState.mk [] []))
        = (putsOf ops).take (deliveredOf (qrun ops (QState.mk [] []))).length := by
  intro α ops
  have h := qrun_invariant ops (QState.mk [] [])
  have h0 : deliveredOf (QState.mk ([] : List α) []) = [] := rfl
  rw [h0] at h
  simp only [List.nil_append] at h
  refine ⟨h, ?_⟩
  rw [← h, List.take_left]

/-- C5: pool startup is lazy and idempotent — after any nonempty
sequence of sequential `schedule_task` calls from the initial state
(spawns succeeding), exactly one set of `max_worker_threads` dispatcher
workers exists and the started flag is set; later submissions never
create another set. -/
theorem C5_lazy_idempotent_start :
    ∀ (subs : List (Int × Nat)), subs ≠ [] →
      (submitAll noFail subs initState).workers = max_worker_threads ∧
      (submitAll noFail subs initState).scheduler_started = true := by
  intro subs hne
  cases subs with
  | nil => exact absurd rfl hne
  | cons p rest =>
    have h1 : (schedule_task noFail initState p.1 p.2).scheduler_started = true :=
      schedule_task_started noFail initState p.1 p.2
    have h2 : (schedule_task noFail initState p.1 p.2).workers = max_worker_threads := by
      simp [schedule_task, initState, _start_task_scheduler,
        foldl_spawn_workers_noFail, max_worker_threads]
    rw [submitAll, submitAll_of_started noFail rest _ h1]
    exact ⟨h2, h1⟩

/-- Witness for C5 at the concrete submission list `[(300, 0)]`. -/
theorem C5_lazy_idempotent_start_witness :
    ([((300 : Int), 0)] : List (Int × Nat)) ≠ [] ∧
      ((submitAll noFail [((300 : Int), 0)] initState).workers = max_worker_threads ∧
       (submitAll noFail [((300 : Int), 0)] initState).scheduler_started = true) :=
  ⟨by decide, C5_lazy_idempotent_start [((300 : Int), 0)] (by decide)⟩

/-- C6, counterexample: the claim says a submission with non-positive
interval is rejected before being enqueued; but `schedule_task`
performs no validation, and the zero-interval task is enqueued. -/
theorem C6_counterexample :
    (0 : Int) ≤ 0 ∧
      Task.mk 0 7 ∈ (schedule_task noFail initState 0 7).task_queue := by
  decide

/-- C6 amended: `schedule_task` performs no interval validation at all
— every submission, with positive, zero or negative interval alike, is
appended to the task queue. -/
theorem C6_amended_no_validation :
    ∀ (sf : Nat → Bool) (s : SchedState) (i : Int) (f : Nat),
      (schedule_task sf s i f).task_queue = s.task_queue ++ [Task.mk i f] := by
  intro sf s i f
  by_cases h : s.scheduler_started
  · simp [schedule_task, h]
  · simp only [Bool.not_eq_true] at h
    simp [schedule_task, h, _start_task_scheduler, foldl_spawn_queue]

/-- C7: a `schedule_task` call always returns normally — in the
exception-explicit rendering of the call, for every spawn-failure
pattern and every starting state the result is `Except.ok`, never an
error: worker-spawn failures are caught and logged inside the call and
nothing propagates to the submitter. -/
theorem C7_submit_never_raises :
    ∀ (sf : Nat → Bool) (s : SchedState) (i : Int) (f : Nat),
      schedule_task_E sf s i f = Except.ok (schedule_task sf s i f) :=
  fun sf s i f => schedule_task_E_ok sf s i f

/-- C8: for every spawn-failure pattern, the dispatcher worker serves
its whole dequeue sequence: tasks whose `run_task` thread started are
exactly those at non-failing attempt indices, tasks at failing indices
are dropped (never retried, never re-queued) with one log line each,
and spawned plus dropped account for every dequeued task. -/
theorem C8_spawn_failure_logged_and_dropped :
    ∀ (sf : Nat → Bool) (tasks : List Task),
      worker_dispatch sf 0 tasks (DispatchResult.mk [] [] [])
        = { spawned := filterIdx (fun j => ! sf j) 0 tasks,
            dropped := filterIdx sf 0 tasks,
            log := List.replicate (filterIdx sf 0 tasks).length
                     "Thread limit reached: cannot start new thread" } ∧
      (filterIdx sf 0 tasks).length + (filterIdx (fun j => ! sf j) 0 tasks).length
        = tasks.length := by
  intro sf tasks
  refine ⟨?_, filterIdx_length_add sf 0 tasks⟩
  rw [worker_dispatch_spec]
  simp

/-- C9: loop-iteration events never change the dispatcher-visible state
— the queue and the number of loops spawned after any event trace equal
those after the trace restricted to dispatch events alone, so slow or
long-running actions (arbitrarily few or no iteration events) never
delay dispatch; and a dispatch step performs no action invocation. -/
theorem C9_dispatch_independent_of_actions :
    ∀ (evs : List WEv) (s : WTrace),
      (wrun evs s).queue = (wrun (evs.filter isDispatch) s).queue ∧
      (wrun evs s).loopsSpawned = (wrun (evs.filter isDispatch) s).loopsSpawned ∧
      (wstep s WEv.dispatch).invoked = s.invoked := by
  intro evs s
  have h := wrun_dpart_filter evs s s rfl
  simp only [dpart, Prod.mk.injEq] at h
  exact ⟨h.1, h.2.2, invoked_dispatch s⟩

/-- C10: `scheduler_started` is set before any worker is spawned, so
when every worker thread of the first submission fails to start the
pool is permanently dead: the first call leaves the flag set, zero
workers and five failure log lines; every later submission (whatever
its spawn pattern would be) only appends to the queue — workers stay at
zero, the log is untouched (the pool start is never retried) — and no
call ever reports an error to its caller. -/
theorem C10_failed_start_never_retried :
    ∀ (i : Int) (f : Nat) (later : List (Int × Nat)) (sf2 : Nat → Bool),
      (schedule_task allFail initState i f).scheduler_started = true ∧
      (schedule_task allFail initState i f).workers = 0 ∧
      (schedule_task allFail initState i f).log.length = max_worker_threads ∧
      submitAll sf2 later (schedule_task allFail initState i f)
        = { task_queue := Task.mk i f :: later.map (fun p => Task.mk p.1 p.2),
            scheduler_started := true,
            workers := 0,
            log := (schedule_task allFail initState i f).log } ∧
      schedule_task_E allFail initState i f
        = Except.ok (schedule_task allFail initState i f) := by
  intro i f later sf2
  have h1 : (schedule_task allFail initState i f).scheduler_started = true :=
    schedule_task_started allFail initState i f
  refine ⟨h1, rfl, rfl, ?_, schedule_task_E_ok allFail initState i f⟩
  rw [submitAll_of_started sf2 later _ h1]
  rfl

end Elohim
